import Mathlib

/-!
Verification model of the amazon-sellers scraper.

Strings from the JavaScript source are modelled as `List Char`.  Pages are
modelled by the data the extraction code reads from them (heading texts,
body text, anchor candidates), and each extraction function is a direct
translation of the corresponding function in `src/`.
-/

/-- The set of characters matched by the JavaScript `\s` regex class and
trimmed by `String.prototype.trim` (ASCII whitespace plus the common
Unicode space characters). -/
def isJsWhitespace (c : Char) : Bool :=
  c = ' ' || c = '\t' || c = '\n' || c = '\r' ||
  c.toNat = 0xb || c.toNat = 0xc || c.toNat = 0xa0 ||
  c.toNat = 0x2028 || c.toNat = 0x2029 || c.toNat = 0xfeff

/-- JavaScript `String.prototype.trim`. -/
def jsTrim (s : List Char) : List Char :=
  ((s.dropWhile isJsWhitespace).reverse.dropWhile isJsWhitespace).reverse

/-- JavaScript `String.prototype.toLowerCase` (character-wise, as used on the
ASCII seller names in this code base). -/
def jsToLower (s : List Char) : List Char :=
  s.map Char.toLower

/-- JavaScript `haystack.includes(needle)`: substring containment. -/
def containsSub (needle : List Char) : List Char → Bool
  | [] => needle.isEmpty
  | c :: rest => needle.isPrefixOf (c :: rest) || containsSub needle rest

/-- `AMAZON_SELLER_NAMES` from `src/src/constants.js`. -/
def AMAZON_SELLER_NAMES : List (List Char) :=
  [("amazon".toList), ("amazon.co.uk".toList), ("amazon.de".toList),
   ("amazon.fr".toList), ("amazon.it".toList), ("amazon.es".toList),
   ("amazon.nl".toList), ("amazon.pl".toList), ("amazon.se".toList),
   ("amazon.com.be".toList), ("amazon.ie".toList), ("amazon.ae".toList),
   ("amazon.co.jp".toList), ("amazon.sa".toList), ("amazon.com.tr".toList),
   ("amazon uk".toList), ("amazon eu s.a.r.l.".toList), ("amazon eu".toList),
   ("amazon europe".toList)]

/-- `isAmazonSeller` from `src/src/scraper.js` lines 6-10 (identical in the
unnamed parts).  `none` models a `null`/`undefined` argument; the empty list
models the empty string (both are falsy, so both return `false` at the
`if (!sellerName)` guard). -/
def isAmazonSeller : Option (List Char) → Bool
  | none => false
  | some s =>
    if s.isEmpty then false
    else
      let normalized := jsTrim (jsToLower s)
      AMAZON_SELLER_NAMES.any fun name =>
        containsSub name normalized || containsSub normalized name

/-- JavaScript `pattern.test`-style exact (case-sensitive) literal match:
returns the rest of the input after the literal, or `none`. -/
def matchExact : List Char → List Char → Option (List Char)
  | [], rest => some rest
  | _ :: _, [] => none
  | p :: ps, c :: cs => if c = p then matchExact ps cs else none

/-- Case-insensitive literal match (for a regex with the `i` flag whose
literal is written in lower case): returns the rest of the input. -/
def matchCI : List Char → List Char → Option (List Char)
  | [], rest => some rest
  | _ :: _, [] => none
  | p :: ps, c :: cs => if c.toLower = p then matchCI ps cs else none

/-- Character class `[:\s]` of the `Customer Service Phone[:\s]+([^\n]+)`
regex. -/
def isColonOrSpace (c : Char) : Bool :=
  c = ':' || isJsWhitespace c

/-- Backtracking over the greedy `[:\s]+` of the customer-service-phone
regex: try the separator length `j`, largest first, and capture the
following `([^\n]+)` group. -/
def csBacktrack : Nat → List Char → Option (List Char)
  | 0, _ => none
  | j + 1, rest =>
    match rest.drop (j + 1) with
    | c :: cs => if c ≠ '\n' then some (c :: cs.takeWhile (· ≠ '\n'))
                 else csBacktrack j rest
    | [] => csBacktrack j rest

/-- At one start position, match `[:\s]+([^\n]+)` after the literal. -/
def csTryCapture (rest : List Char) : Option (List Char) :=
  csBacktrack ((rest.takeWhile isColonOrSpace).length) rest

/-- Leftmost-match scan for `/Customer Service Phone[:\s]+([^\n]+)/i`
(the fallback pattern used in every `extractSellerInfo` variant); returns
the first capture group. -/
def csScan : List Char → Option (List Char)
  | [] => none
  | c :: cs =>
    match matchCI ("customer service phone".toList) (c :: cs) with
    | some rest =>
      match csTryCapture rest with
      | some cap => some cap
      | none => csScan cs
    | none => csScan cs

/-- `bodyText.match(/Customer Service Phone[:\s]+([^\n]+)/i)`, first capture. -/
def matchCsPhone (s : List Char) : Option (List Char) :=
  csScan s

/-- Character class `[\d.]`. -/
def isDigitDot (c : Char) : Bool :=
  c.isDigit || c = '.'

/-- At one position, match `([\d.]+)\s*out of\s*5\s*stars` and return the
capture (part_000/part_001 rating pattern). -/
def tryRatingStarsAt (s : List Char) : Option (List Char) :=
  let cap := s.takeWhile isDigitDot
  if cap.isEmpty then none
  else
    match matchExact ("out of".toList) ((s.drop cap.length).dropWhile isJsWhitespace) with
    | none => none
    | some r2 =>
      match r2.dropWhile isJsWhitespace with
      | '5' :: r4 =>
        match matchExact ("stars".toList) (r4.dropWhile isJsWhitespace) with
        | some _ => some cap
        | none => none
      | _ => none

/-- At one position, match `([\d.]+)\s*out of\s*5` and return the capture
(`src/src/scraper.js` rating pattern). -/
def tryRatingAt (s : List Char) : Option (List Char) :=
  let cap := s.takeWhile isDigitDot
  if cap.isEmpty then none
  else
    match matchExact ("out of".toList) ((s.drop cap.length).dropWhile isJsWhitespace) with
    | none => none
    | some r2 =>
      match r2.dropWhile isJsWhitespace with
      | '5' :: _ => some cap
      | _ => none

/-- At one position, match `(\d+)%\s*positive` and return the capture. -/
def tryPercentAt (s : List Char) : Option (List Char) :=
  let cap := s.takeWhile Char.isDigit
  if cap.isEmpty then none
  else
    match s.drop cap.length with
    | '%' :: r1 =>
      match matchExact ("positive".toList) (r1.dropWhile isJsWhitespace) with
      | some _ => some cap
      | none => none
    | _ => none

/-- After the count digits: `\s*ratings?\)`. -/
def countTail (r : List Char) : Bool :=
  match matchExact ("rating".toList) (r.dropWhile isJsWhitespace) with
  | some ('s' :: ')' :: _) => true
  | some (')' :: _) => true
  | _ => false

/-- At one position, match `\((\d[\d,]*)\s*ratings?\)` and return the capture
(part_000/part_001 count pattern). -/
def tryCountCommaAt (s : List Char) : Option (List Char) :=
  match s with
  | '(' :: d :: r2 =>
    if d.isDigit then
      let more := r2.takeWhile fun c => c.isDigit || c = ','
      if countTail (r2.drop more.length) then some (d :: more) else none
    else none
  | _ => none

/-- At one position, match `\((\d+)\s*ratings?\)` and return the capture
(`src/src/scraper.js` count pattern). -/
def tryCountAt (s : List Char) : Option (List Char) :=
  match s with
  | '(' :: r1 =>
    let cap := r1.takeWhile Char.isDigit
    if cap.isEmpty then none
    else if countTail (r1.drop cap.length) then some cap else none
  | _ => none

/-- Leftmost-match scan driving one of the position matchers above. -/
def reScan (tryAt : List Char → Option (List Char)) : List Char → Option (List Char)
  | [] => none
  | c :: cs =>
    match tryAt (c :: cs) with
    | some cap => some cap
    | none => reScan tryAt cs

/-- `parseInt(s, 10)` on an all-digit capture. -/
def digitsToNat (s : List Char) : Nat :=
  s.foldl (fun n c => n * 10 + (c.toNat - '0'.toNat)) 0

/-- `parseFloat` on a `[\d.]+` capture, modelled exactly over `ℚ`;
`none` models `NaN` (capture `"."`). -/
def parseFloatQ (s : List Char) : Option ℚ :=
  let ip := s.takeWhile Char.isDigit
  match s.drop ip.length with
  | '.' :: r1 =>
    let fp := r1.takeWhile Char.isDigit
    if ip.isEmpty && fp.isEmpty then none
    else some ((digitsToNat ip : ℚ) + (digitsToNat fp : ℚ) / ((10 : ℚ) ^ fp.length))
  | _ => if ip.isEmpty then none else some ((digitsToNat ip : ℚ))

/-- The `result` object built inside the `page.evaluate` of
`extractSellerInfo`.  `none` models a field that was never assigned
(or was assigned `null`). -/
structure SellerInfo where
  sellerDisplayName : Option (List Char) := none
  rating : Option ℚ := none
  positivePercent : Option Nat := none
  ratingCount : Option Nat := none
  hasDetailedInfo : Option Bool := none
  businessName : Option (List Char) := none
  businessType : Option (List Char) := none
  tradeRegisterNumber : Option (List Char) := none
  vatNumber : Option (List Char) := none
  phoneNumber : Option (List Char) := none
  email : Option (List Char) := none
  businessAddress : Option (List Char) := none
  customerServiceAddress : Option (List Char) := none
  customerServicePhone : Option (List Char) := none
  error : Option (List Char) := none
deriving DecidableEq

/-- `line.includes(':')`. -/
def containsColon (l : List Char) : Bool :=
  l.any (· = ':')

/-- `line.split(':')[0].trim()`. -/
def keyOf (line : List Char) : List Char :=
  jsTrim (line.takeWhile (· ≠ ':'))

/-- `line.split(':').slice(1).join(':').trim()` — everything after the first
colon, trimmed. -/
def valueOf (line : List Char) : List Char :=
  jsTrim ((line.dropWhile (· ≠ ':')).drop 1)

/-- Stop condition of the address-continuation scan:
`lines[j].includes(':') || lines[j].includes('This seller')`. -/
def addrStop (l : List Char) : Bool :=
  containsColon l || containsSub ("This seller".toList) l

/-- `addrLines.join(', ')`. -/
def joinComma (ls : List (List Char)) : List Char :=
  List.intercalate (", ".toList) ls

/-- The `for (let i = 0; ...)` label:value loop over the detail-block lines
(identical in `src/src/scraper.js` lines 164-193, part_000 lines 134-162 and
part_001 lines 233-261).  The address continuation reads forward from the
current position; the outer loop itself always advances one line. -/
def parseDetailLoop : List (List Char) → SellerInfo → SellerInfo
  | [], r => r
  | line :: rest, r =>
    if containsColon line then
      let key := keyOf line
      let value := valueOf line
      let keyLower := jsToLower key
      if !value.isEmpty then
        let r2 :=
          if keyLower = ("business name".toList) then { r with businessName := some value }
          else if keyLower = ("business type".toList) then { r with businessType := some value }
          else if keyLower = ("trade register number".toList) then { r with tradeRegisterNumber := some value }
          else if keyLower = ("vat number".toList) then { r with vatNumber := some value }
          else if keyLower = ("phone number".toList) then { r with phoneNumber := some value }
          else if keyLower = ("email".toList) then { r with email := some value }
          else r
        parseDetailLoop rest r2
      else if keyLower = ("business address".toList) then
        parseDetailLoop rest
          { r with businessAddress := some (joinComma (rest.takeWhile fun l => !addrStop l)) }
      else if keyLower = ("customer services address".toList) then
        parseDetailLoop rest
          { r with customerServiceAddress := some (joinComma (rest.takeWhile fun l => !addrStop l)) }
      else
        parseDetailLoop rest r
    else
      parseDetailLoop rest r

/-- `allText.split('\n')`. -/
def splitOnNewline : List Char → List (List Char)
  | [] => [[]]
  | c :: rest =>
    let r := splitOnNewline rest
    if c = '\n' then [] :: r
    else
      match r with
      | [] => [[c]]
      | h :: t => (c :: h) :: t

/-- `allText.split('\n').map(l => l.trim()).filter(Boolean)`. -/
def detailLines (txt : List Char) : List (List Char) :=
  ((splitOnNewline txt).map jsTrim).filter fun l => !l.isEmpty

/-- `headings.find(h => h.textContent.includes('Detailed Seller Information'))`
reduced to its observable outcome: is there such a heading. -/
def hasDetailHeading (h3s : List (List Char)) : Bool :=
  h3s.any fun h => containsSub ("Detailed Seller Information".toList) h

/-- What the `page.evaluate` of part_000/part_001's `extractSellerInfo`
reads from the rendered profile document: the `h1` text, the full
`document.body.innerText`, the texts of all `h3` headings, and the
`innerText` of the container element enclosing the detail heading
(`none` when `closest(...)` and the grandparent both fail, the code's
`if (!container) return result` path). -/
structure ProfilePage where
  h1Text : Option (List Char)
  bodyText : List Char
  h3Texts : List (List Char)
  containerText : Option (List Char)
deriving DecidableEq

/-- Display name and rating fields of part_000/part_001's evaluate:
`h1.textContent.trim()` plus the three body-text regex matches. -/
def baseInfo (p : ProfilePage) : SellerInfo :=
  { sellerDisplayName := p.h1Text.map jsTrim
    rating := (reScan tryRatingStarsAt p.bodyText).bind parseFloatQ
    positivePercent := (reScan tryPercentAt p.bodyText).map digitsToNat
    ratingCount := (reScan tryCountCommaAt p.bodyText).map fun cap =>
      digitsToNat (cap.filter (· ≠ ',')) }

/-- The `page.evaluate` body of `extractSellerInfo` in part_000 (lines
90-174) and part_001 (lines 189-273), which are textually identical.
The final customer-service-phone fallback stores the trimmed capture; the
`!result.phoneNumber` test is modelled by matching the optional field,
exact here because the label:value parse only ever stores non-empty
values. -/
def extractSellerInfoEval (p : ProfilePage) : SellerInfo :=
  match hasDetailHeading p.h3Texts with
  | true =>
    match p.containerText with
    | none => { baseInfo p with hasDetailedInfo := some true }
    | some txt =>
      let r3 := parseDetailLoop (detailLines txt) { baseInfo p with hasDetailedInfo := some true }
      match matchCsPhone p.bodyText with
      | some v =>
        match r3.phoneNumber with
        | none => { r3 with customerServicePhone := some (jsTrim v), phoneNumber := some (jsTrim v) }
        | some _ => { r3 with customerServicePhone := some (jsTrim v) }
      | none => r3
  | false =>
    let r2 := { baseInfo p with hasDetailedInfo := some false }
    match matchCsPhone p.bodyText with
    | some v => { r2 with phoneNumber := some (jsTrim v), customerServicePhone := some (jsTrim v) }
    | none => r2

/-- The phone number produced by the detail-block parse alone in
part_000/part_001's evaluate (before the customer-service-phone fallback):
`none` whenever the parse is not reached. -/
def detailPhone (p : ProfilePage) : Option (List Char) :=
  match hasDetailHeading p.h3Texts with
  | true =>
    match p.containerText with
    | some txt =>
      (parseDetailLoop (detailLines txt) { baseInfo p with hasDetailedInfo := some true }).phoneNumber
    | none => none
  | false => none

/-- What the `page.evaluate` of `src/src/scraper.js`'s `extractSellerInfo`
reads from the document.  `ratingText` is
`ratingLink.closest('div')?.innerText` when the rating link exists
(`none` when the link or the text is missing). -/
structure ProfilePageS where
  h1Text : Option (List Char)
  ratingText : Option (List Char)
  bodyText : List Char
  h3Texts : List (List Char)
  containerText : Option (List Char)
deriving DecidableEq

/-- Display name and rating fields of `src/src/scraper.js`'s evaluate
(lines 127-144): the rating regexes run on the trimmed rating-link text,
not on the whole body. -/
def baseInfoS (p : ProfilePageS) : SellerInfo :=
  let r0 : SellerInfo := { sellerDisplayName := p.h1Text.map jsTrim }
  match p.ratingText with
  | none => r0
  | some t =>
    match jsTrim t with
    | [] => r0
    | c :: cs =>
      { r0 with
        rating := (reScan tryRatingAt (c :: cs)).bind parseFloatQ
        positivePercent := (reScan tryPercentAt (c :: cs)).map digitsToNat
        ratingCount := (reScan tryCountAt (c :: cs)).map digitsToNat }

/-- The `page.evaluate` body of `extractSellerInfo` in `src/src/scraper.js`
(lines 123-206).  Note: when no detail heading is found it returns at line
152 with only `hasDetailedInfo = false`; the customer-service-phone
fallback (lines 195-203) is reached only when the heading and its
container were found. -/
def extractSellerInfoEvalS (p : ProfilePageS) : SellerInfo :=
  match hasDetailHeading p.h3Texts with
  | true =>
    match p.containerText with
    | none => { baseInfoS p with hasDetailedInfo := some true }
    | some txt =>
      let r3 := parseDetailLoop (detailLines txt) { baseInfoS p with hasDetailedInfo := some true }
      match matchCsPhone p.bodyText with
      | some v =>
        match r3.phoneNumber with
        | none => { r3 with phoneNumber := some (jsTrim v), customerServicePhone := some (jsTrim v) }
        | some _ => { r3 with customerServicePhone := some (jsTrim v) }
      | none => r3
  | false => { baseInfoS p with hasDetailedInfo := some false }

/-- Detail-block phone of the `src/src/scraper.js` evaluate. -/
def detailPhoneS (p : ProfilePageS) : Option (List Char) :=
  match hasDetailHeading p.h3Texts with
  | true =>
    match p.containerText with
    | some txt =>
      (parseDetailLoop (detailLines txt) { baseInfoS p with hasDetailedInfo := some true }).phoneNumber
    | none => none
  | false => none

/-- One candidate produced by a discovery strategy for one anchor:
`{ name, sellerId, href, strategy }`.  An empty `sellerId` models both a
`null` and an empty extraction result (both falsy, both rejected by the
same guard). -/
structure Candidate where
  name : List Char
  sellerId : List Char
  href : List Char
  strategy : List Char
deriving DecidableEq

/-- The acceptance guard `if (sellerId && name && ...)`. -/
def validCandidate (c : Candidate) : Bool :=
  !c.sellerId.isEmpty && !c.name.isEmpty

/-- The accumulation loop of part_001's multi-strategy in-page extraction
(lines 111-172): candidates arrive in strategy-priority-then-DOM order, and
a candidate is pushed only when valid and its sellerId is not in the
`seenIds` set. -/
def accumStrategies (seen : List (List Char)) : List Candidate → List Candidate
  | [] => []
  | c :: rest =>
    if validCandidate c && !(seen.contains c.sellerId) then
      c :: accumStrategies (c.sellerId :: seen) rest
    else
      accumStrategies seen rest

/-- One `map.set(k, v)` step of a JavaScript `Map`: an existing key keeps
its position but its value is overwritten; a new key is appended. -/
def jsMapInsert (m : List (List Char × Candidate)) (k : List Char) (v : Candidate) :
    List (List Char × Candidate) :=
  if m.any (fun p => p.1 == k) then
    m.map fun p => if p.1 == k then (k, v) else p
  else
    m ++ [(k, v)]

/-- `new Map(sellers.map(s => [s.sellerId, s]))` built by sequential
insertion. -/
def jsMapOfAux : List (List Char × Candidate) → List Candidate → List (List Char × Candidate)
  | m, [] => m
  | m, c :: rest => jsMapOfAux (jsMapInsert m c.sellerId c) rest

/-- `[...new Map(sellers.map(s => [s.sellerId, s])).values()]` — the
deduplication step shared by part_000 line 76, part_001 line 175 and
`extractSellersFromAOD` in `src/src/scraper.js` line 105. -/
def dedupeBySellerIdMap (l : List Candidate) : List Candidate :=
  (jsMapOfAux [] l).map Prod.snd

/-- The not-found / error-page heuristic of both `extractAllSellers`
versions. -/
def notFoundPage (title url : List Char) : Bool :=
  containsSub ("Page Not Found".toList) title || containsSub ("404".toList) title ||
  containsSub ("Sorry".toList) title || containsSub ("/errors/".toList) url

/-- What part_000's `extractAllSellers` observes about the offer-listing
navigation: whether `page.goto` threw, the title and URL afterwards, the
CAPTCHA probe, and the per-anchor extraction results of its single
`a[href*="/gp/aag/main"]` strategy. -/
structure OfferPage000 where
  navFailed : Bool
  title : List Char
  url : List Char
  hasCaptcha : Bool
  rawSellers : List Candidate
deriving DecidableEq

/-- What part_001's `extractAllSellers` observes: same navigation data, and
the candidates of its three strategies concatenated in strategy-priority-
then-DOM order. -/
structure OfferPage001 where
  navFailed : Bool
  title : List Char
  url : List Char
  hasCaptcha : Bool
  candidates : List Candidate
deriving DecidableEq

/-- Result of a discovery run: the seller sequence plus whether a
navigation-failure warning was logged. -/
structure DiscoverResult where
  sellers : List Candidate
  warnedNavFailure : Bool
deriving DecidableEq

/-- `extractAllSellers` of part_000 (lines 25-80): a navigation failure is
caught, a warning logged, and the function returns `[]` at once. -/
def extractAllSellers000 (p : OfferPage000) : DiscoverResult :=
  if p.navFailed then { sellers := [], warnedNavFailure := true }
  else if notFoundPage p.title p.url then { sellers := [], warnedNavFailure := false }
  else if p.hasCaptcha then { sellers := [], warnedNavFailure := false }
  else
    { sellers := dedupeBySellerIdMap (p.rawSellers.filter validCandidate)
      warnedNavFailure := false }

/-- `extractAllSellers` of part_001 (lines 25-179): a navigation failure
only logs a "continuing anyway" warning (lines 32-34); the title/URL
checks, the CAPTCHA probe and the extraction still run on whatever page
state remains. -/
def extractAllSellers001 (p : OfferPage001) : DiscoverResult :=
  { sellers :=
      if notFoundPage p.title p.url then []
      else if p.hasCaptcha then []
      else dedupeBySellerIdMap (accumStrategies [] p.candidates)
    warnedNavFailure := p.navFailed }

/-- Outcome of one `extractSellerInfo` call: either the navigation /
in-page evaluation threw (caught by the surrounding `try`), or the page
was read successfully. -/
inductive FetchOutcome where
  | fail (msg : List Char)
  | ok (p : ProfilePage)

/-- `extractSellerInfo` of part_000/part_001 as the caller sees it: the
`catch` turns every failure into `{ error: err.message }` and nothing is
ever thrown (the function is total). -/
def extractSellerInfo000 : FetchOutcome → SellerInfo
  | .fail msg => { error := some msg }
  | .ok p => extractSellerInfoEval p

/-- JavaScript `x || null` for a string field. -/
def jsOrNullStr : Option (List Char) → Option (List Char)
  | some s => if s.isEmpty then none else some s
  | none => none

/-- JavaScript `x || null` for the float rating field. -/
def jsOrNullQ : Option ℚ → Option ℚ
  | some v => if v = 0 then none else some v
  | none => none

/-- JavaScript `x || null` for an integer field. -/
def jsOrNullNat : Option Nat → Option Nat
  | some v => if v = 0 then none else some v
  | none => none

/-- One output record of `scrapeAsinOnMarketplace` (the `results.push`
object; the wall-clock `scrapedAt` timestamp is not modelled). -/
structure SellerRecordOut where
  asin : List Char
  marketplace : List Char
  marketplaceDomain : List Char
  sellerName : List Char
  sellerId : List Char
  sellerDisplayName : List Char
  businessName : Option (List Char)
  businessType : Option (List Char)
  phoneNumber : Option (List Char)
  customerServicePhone : Option (List Char)
  email : Option (List Char)
  vatNumber : Option (List Char)
  tradeRegisterNumber : Option (List Char)
  businessAddress : Option (List Char)
  customerServiceAddress : Option (List Char)
  rating : Option ℚ
  positivePercent : Option Nat
  ratingCount : Option Nat
  hasDetailedInfo : Bool
deriving DecidableEq

/-- The record assembly of `scrapeAsinOnMarketplace` (part_000 lines
222-243, part_001 lines 321-342, `src/src/scraper.js` lines 291-312): every
profile field is emitted through `|| null`, the display name falls back to
the discovered anchor text, and `hasDetailedInfo` through `|| false`. -/
def buildRecord (asin mkCode mkDomain : List Char) (seller : Candidate)
    (info : SellerInfo) : SellerRecordOut :=
  { asin := asin
    marketplace := mkCode
    marketplaceDomain := mkDomain
    sellerName := seller.name
    sellerId := seller.sellerId
    sellerDisplayName :=
      match info.sellerDisplayName with
      | some s => if s.isEmpty then seller.name else s
      | none => seller.name
    businessName := jsOrNullStr info.businessName
    businessType := jsOrNullStr info.businessType
    phoneNumber := jsOrNullStr info.phoneNumber
    customerServicePhone := jsOrNullStr info.customerServicePhone
    email := jsOrNullStr info.email
    vatNumber := jsOrNullStr info.vatNumber
    tradeRegisterNumber := jsOrNullStr info.tradeRegisterNumber
    businessAddress := jsOrNullStr info.businessAddress
    customerServiceAddress := jsOrNullStr info.customerServiceAddress
    rating := jsOrNullQ info.rating
    positivePercent := jsOrNullNat info.positivePercent
    ratingCount := jsOrNullNat info.ratingCount
    hasDetailedInfo := info.hasDetailedInfo.getD false }

/-- One record as annotated by the orchestrator loop in part_002
(lines 78-91): `sellerId`, the marketplace of the unit that produced it,
and the cross-marketplace provenance fields written before emission. -/
structure AnnotatedSeller where
  sellerId : List Char
  marketplace : List Char
  firstSeenOnMarketplace : List Char
  isDuplicate : Bool
deriving DecidableEq

/-- `sellersSeen.get(key)` on the assoc-list model of the run-scoped
`Map` (`sellerId -> first marketplace found`). -/
def seenLookup (seen : List (List Char × List Char)) (s : List Char) : Option (List Char) :=
  (seen.find? fun p => p.1 == s).map Prod.snd

/-- Records emitted for one (product, marketplace) unit by the part_002
loop, given the seen-map at unit entry: consult `sellersSeen`, annotate,
then insert on first sight. -/
def unitOut (seen : List (List Char × List Char)) (mk : List Char) :
    List (List Char) → List AnnotatedSeller
  | [] => []
  | s :: rest =>
    match seenLookup seen s with
    | some first => ⟨s, mk, first, true⟩ :: unitOut seen mk rest
    | none => ⟨s, mk, mk, false⟩ :: unitOut (seen ++ [(s, mk)]) mk rest

/-- The seen-map after one unit (same traversal as `unitOut`). -/
def unitSeen (seen : List (List Char × List Char)) (mk : List Char) :
    List (List Char) → List (List Char × List Char)
  | [] => seen
  | s :: rest =>
    match seenLookup seen s with
    | some _ => unitSeen seen mk rest
    | none => unitSeen (seen ++ [(s, mk)]) mk rest

/-- The part_002 scraping loop over a list of (marketplace code, sellerIds
discovered there) units, processed strictly in order with one shared
seen-map. -/
def orchestrateAux (seen : List (List Char × List Char)) :
    List (List Char × List (List Char)) → List AnnotatedSeller
  | [] => []
  | (mk, l) :: rest => unitOut seen mk l ++ orchestrateAux (unitSeen seen mk l) rest

/-- The whole-run emission sequence, starting from an empty seen-map. -/
def orchestrate (units : List (List Char × List (List Char))) : List AnnotatedSeller :=
  orchestrateAux [] units

/-! ### Concrete pages used by the witnesses and counterexamples -/

/-- Detail-block lines exactly as the spec's address-continuation test
vector writes them (no colon after the address label). -/
def linesC4 : List (List Char) :=
  [("Business Address".toList), ("12 High Street".toList), ("London, EC1 1AA".toList),
   ("United Kingdom".toList), ("VAT Number: GB123456789".toList)]

/-- The same vector with the label rendered as the code expects it: a
label:value line whose value is empty. -/
def linesC4colon : List (List Char) :=
  [("Business Address:".toList), ("12 High Street".toList), ("London, EC1 1AA".toList),
   ("United Kingdom".toList), ("VAT Number: GB123456789".toList)]

/-- A profile page with no detail heading but a customer-service-phone
line, for the `src/src/scraper.js` extractor. -/
def pageC2S : ProfilePageS :=
  { h1Text := none
    ratingText := none
    bodyText := ("Customer Service Phone: +44 20 7946 0958".toList)
    h3Texts := []
    containerText := none }

/-- A profile page with no detail heading but a customer-service-phone
line, for the part_000/part_001 extractor. -/
def pageC2P : ProfilePage :=
  { h1Text := some ("Acme Trading".toList)
    bodyText := ("Customer Service Phone: +44 20 7946 0958".toList)
    h3Texts := [("About this seller".toList)]
    containerText := none }

/-- A scraper.js profile page whose body matches the fallback label while
the detail heading is absent. -/
def pageC7S : ProfilePageS :=
  { h1Text := none
    ratingText := none
    bodyText := ("Customer Service Phone: +971 4 555 0100".toList)
    h3Texts := [("Returns".toList)]
    containerText := none }

/-- A part_000/part_001 profile page with a detail block carrying its own
phone number and a distinct customer-service-phone line in the body. -/
def pageC7P : ProfilePage :=
  { h1Text := some ("Acme".toList)
    bodyText := ("Customer Service Phone: 999".toList)
    h3Texts := [("Detailed Seller Information".toList)]
    containerText := some ("Phone Number: 123".toList) }

/-- A scraper.js profile page with a detail block carrying its own phone
number and a distinct customer-service-phone line in the body. -/
def pageC7Q : ProfilePageS :=
  { h1Text := some ("Acme".toList)
    ratingText := none
    bodyText := ("Customer Service Phone: 888".toList)
    h3Texts := [("Detailed Seller Information".toList)]
    containerText := some ("Phone Number: 456".toList) }

/-- An offer page for part_000 whose single strategy extracted the same
sellerId twice with different display texts. -/
def offerC1 : OfferPage000 :=
  { navFailed := false
    title := ("ok".toList)
    url := ("u".toList)
    hasCaptcha := false
    rawSellers :=
      [⟨("First Seller".toList), ("A1XYZ".toList), ("h1".toList), ("aod".toList)⟩,
       ⟨("Second Seller".toList), ("A1XYZ".toList), ("h2".toList), ("aod".toList)⟩] }

/-- A multi-strategy offer page where the same sellerId is yielded by two
strategies with different display texts. -/
def offerC1W : OfferPage001 :=
  { navFailed := false
    title := ("ok".toList)
    url := ("u".toList)
    hasCaptcha := false
    candidates :=
      [⟨("Acme".toList), ("A1XYZ".toList), ("h1".toList), ("aag".toList)⟩,
       ⟨("Acme Store".toList), ("A1XYZ".toList), ("h2".toList), ("sellerParam".toList)⟩,
       ⟨("Other".toList), ("B2".toList), ("h3".toList), ("sellerParam".toList)⟩] }

/-- A part_001 offer page whose navigation failed but whose remaining page
state still contains a valid seller candidate. -/
def offerC3 : OfferPage001 :=
  { navFailed := true
    title := ("Widget page".toList)
    url := ("https://www.amazon.ae/dp/B0TEST".toList)
    hasCaptcha := false
    candidates := [⟨("Acme Trading".toList), ("A1B2C3".toList), ("h".toList), ("aag".toList)⟩] }

/-- A part_000 offer page whose navigation failed while candidates would
have been extractable. -/
def offerC3W : OfferPage000 :=
  { navFailed := true
    title := ("Widget page".toList)
    url := ("https://www.amazon.ae/dp/B0TEST".toList)
    hasCaptcha := false
    rawSellers := [⟨("Acme Trading".toList), ("A1B2C3".toList), ("h".toList), ("aod".toList)⟩] }

/-! ### Helper lemmas -/

lemma isPrefixOf_self (l : List Char) : l.isPrefixOf l = true := by
  induction l with
  | nil => rfl
  | cons a as ih => simp [List.isPrefixOf_cons₂, ih]

lemma containsSub_self (l : List Char) : containsSub l l = true := by
  cases l with
  | nil => rfl
  | cons c cs => simp [containsSub, isPrefixOf_self]

lemma containsSub_nil_left (l : List Char) : containsSub [] l = true := by
  cases l with
  | nil => rfl
  | cons c cs => simp [containsSub]

lemma amazonNames_ne_nil : ∀ e ∈ AMAZON_SELLER_NAMES, e ≠ ([] : List Char) := by
  decide

lemma toLower_of_ws {c : Char} (h : isJsWhitespace c = true) : Char.toLower c = c := by
  simp only [isJsWhitespace, Bool.or_eq_true, decide_eq_true_eq] at h
  rcases h with ((((((((h | h) | h) | h) | h) | h) | h) | h) | h) | h
  · subst h; decide
  · subst h; decide
  · subst h; decide
  · subst h; decide
  all_goals
    simp only [Char.toLower]
    rw [h, if_neg (by omega)]

lemma jsTrim_eq_nil_of_ws {s : List Char} (h : ∀ c ∈ s, isJsWhitespace c = true) :
    jsTrim (jsToLower s) = [] := by
  have hmap : jsToLower s = s := by
    unfold jsToLower
    rw [List.map_congr_left fun a ha => toLower_of_ws (h a ha)]
    exact List.map_id s
  rw [hmap]
  unfold jsTrim
  rw [List.dropWhile_eq_nil_iff.mpr h]
  rfl

/-! ### C6 -/

/-- C6: `isAmazonSeller` returns true for every display name whose
lower-cased, trimmed form equals an entry of `AMAZON_SELLER_NAMES`; it
returns false for every name where no listed entry is a substring of the
normalized name and the normalized name is no substring of any listed
entry; and it returns false for an absent or empty name. -/
theorem c6_first_party_filter (entry s t : List Char)
    (hmem : entry ∈ AMAZON_SELLER_NAMES)
    (hs : jsTrim (jsToLower s) = entry)
    (ht : ∀ e ∈ AMAZON_SELLER_NAMES,
      containsSub e (jsTrim (jsToLower t)) = false ∧
      containsSub (jsTrim (jsToLower t)) e = false) :
    isAmazonSeller (some s) = true ∧ isAmazonSeller (some t) = false ∧
    isAmazonSeller none = false ∧ isAmazonSeller (some []) = false := by
  refine ⟨?_, ?_, rfl, rfl⟩
  · cases s with
    | nil =>
      exfalso
      apply amazonNames_ne_nil entry hmem
      rw [← hs]
      rfl
    | cons a as =>
      simp only [isAmazonSeller, List.isEmpty_cons, Bool.false_eq_true, if_false]
      rw [hs, List.any_eq_true]
      exact ⟨entry, hmem, by simp [containsSub_self]⟩
  · cases t with
    | nil => rfl
    | cons a as =>
      simp only [isAmazonSeller, List.isEmpty_cons, Bool.false_eq_true, if_false]
      rw [List.any_eq_false]
      intro e he
      rcases ht e he with ⟨h1, h2⟩
      simp [h1, h2]

/-- C6 witness: a concrete listed name in mixed case with surrounding
whitespace, a concrete unrelated business name, and the empty/absent
cases. -/
theorem c6_first_party_filter_witness :
    (("amazon".toList) ∈ AMAZON_SELLER_NAMES ∧
     jsTrim (jsToLower ("  AMAZON ".toList)) = ("amazon".toList) ∧
     (∀ e ∈ AMAZON_SELLER_NAMES,
       containsSub e (jsTrim (jsToLower ("Bob".toList))) = false ∧
       containsSub (jsTrim (jsToLower ("Bob".toList))) e = false)) ∧
    isAmazonSeller (some ("  AMAZON ".toList)) = true ∧
    isAmazonSeller (some ("Bob".toList)) = false ∧
    isAmazonSeller none = false ∧ isAmazonSeller (some []) = false :=
  ⟨⟨by decide, by decide, by decide⟩,
   c6_first_party_filter ("amazon".toList) ("  AMAZON ".toList) ("Bob".toList)
     (by decide) (by decide) (by decide)⟩

/-! ### C9 -/

/-- C9: `isAmazonSeller` returns true for every non-empty all-whitespace
name (its normalized form is the empty string, a substring of every listed
name), and more generally for every non-empty name whose trimmed lowercase
form is a substring of some listed first-party name. -/
theorem c9_substring_both_directions (s t e : List Char)
    (hs : s ≠ []) (hws : ∀ c ∈ s, isJsWhitespace c = true)
    (ht : t ≠ []) (he : e ∈ AMAZON_SELLER_NAMES)
    (hsub : containsSub (jsTrim (jsToLower t)) e = true) :
    isAmazonSeller (some s) = true ∧ isAmazonSeller (some t) = true := by
  constructor
  · cases s with
    | nil => exact absurd rfl hs
    | cons a as =>
      simp only [isAmazonSeller, List.isEmpty_cons, Bool.false_eq_true, if_false]
      rw [List.any_eq_true]
      refine ⟨("amazon".toList), by decide, ?_⟩
      rw [jsTrim_eq_nil_of_ws hws, containsSub_nil_left]
      simp
  · cases t with
    | nil => exact absurd rfl ht
    | cons a as =>
      simp only [isAmazonSeller, List.isEmpty_cons, Bool.false_eq_true, if_false]
      rw [List.any_eq_true]
      exact ⟨e, he, by simp [hsub]⟩

/-- C9 witness: the all-whitespace name `"   "` and the fragment `"zon"`
(a substring of `"amazon"`) are both classified as first-party. -/
theorem c9_substring_both_directions_witness :
    (("   ".toList) ≠ ([] : List Char) ∧
     (∀ c ∈ ("   ".toList), isJsWhitespace c = true) ∧
     ("zon".toList) ≠ ([] : List Char) ∧
     ("amazon".toList) ∈ AMAZON_SELLER_NAMES ∧
     containsSub (jsTrim (jsToLower ("zon".toList))) ("amazon".toList) = true) ∧
    isAmazonSeller (some ("   ".toList)) = true ∧
    isAmazonSeller (some ("zon".toList)) = true :=
  ⟨⟨by decide, by decide, by decide, by decide, by decide⟩,
   c9_substring_both_directions ("   ".toList) ("zon".toList) ("amazon".toList)
     (by decide) (by decide) (by decide) (by decide) (by decide)⟩

/-! ### C10 -/

lemma jsOrNullStr_eq_none (o : Option (List Char)) :
    jsOrNullStr o = none ↔ o = none ∨ o = some [] := by
  cases o with
  | none => simp [jsOrNullStr]
  | some s => cases s <;> simp [jsOrNullStr]

lemma jsOrNullQ_eq_none (o : Option ℚ) :
    jsOrNullQ o = none ↔ o = none ∨ o = some 0 := by
  cases o with
  | none => simp [jsOrNullQ]
  | some v =>
    by_cases hv : v = 0 <;> simp [jsOrNullQ, hv]

lemma jsOrNullNat_eq_none (o : Option Nat) :
    jsOrNullNat o = none ↔ o = none ∨ o = some 0 := by
  cases o with
  | none => simp [jsOrNullNat]
  | some v =>
    by_cases hv : v = 0 <;> simp [jsOrNullNat, hv]

/-- C10: in the emitted record every profile field whose extracted value
is falsy is coerced to null — each numeric field is absent exactly when it
was absent or zero, and each string field is absent exactly when it was
absent or empty, so the output never distinguishes a zero (or empty) value
from an absent one. -/
theorem c10_falsy_coerced_to_null (asin mkCode mkDomain : List Char)
    (seller : Candidate) (info : SellerInfo) :
    ((buildRecord asin mkCode mkDomain seller info).rating = none ↔
      info.rating = none ∨ info.rating = some 0) ∧
    ((buildRecord asin mkCode mkDomain seller info).positivePercent = none ↔
      info.positivePercent = none ∨ info.positivePercent = some 0) ∧
    ((buildRecord asin mkCode mkDomain seller info).ratingCount = none ↔
      info.ratingCount = none ∨ info.ratingCount = some 0) ∧
    ((buildRecord asin mkCode mkDomain seller info).businessName = none ↔
      info.businessName = none ∨ info.businessName = some []) ∧
    ((buildRecord asin mkCode mkDomain seller info).businessType = none ↔
      info.businessType = none ∨ info.businessType = some []) ∧
    ((buildRecord asin mkCode mkDomain seller info).phoneNumber = none ↔
      info.phoneNumber = none ∨ info.phoneNumber = some []) ∧
    ((buildRecord asin mkCode mkDomain seller info).customerServicePhone = none ↔
      info.customerServicePhone = none ∨ info.customerServicePhone = some []) ∧
    ((buildRecord asin mkCode mkDomain seller info).email = none ↔
      info.email = none ∨ info.email = some []) ∧
    ((buildRecord asin mkCode mkDomain seller info).vatNumber = none ↔
      info.vatNumber = none ∨ info.vatNumber = some []) ∧
    ((buildRecord asin mkCode mkDomain seller info).tradeRegisterNumber = none ↔
      info.tradeRegisterNumber = none ∨ info.tradeRegisterNumber = some []) ∧
    ((buildRecord asin mkCode mkDomain seller info).businessAddress = none ↔
      info.businessAddress = none ∨ info.businessAddress = some []) ∧
    ((buildRecord asin mkCode mkDomain seller info).customerServiceAddress = none ↔
      info.customerServiceAddress = none ∨ info.customerServiceAddress = some []) :=
  ⟨jsOrNullQ_eq_none _, jsOrNullNat_eq_none _, jsOrNullNat_eq_none _,
   jsOrNullStr_eq_none _, jsOrNullStr_eq_none _, jsOrNullStr_eq_none _,
   jsOrNullStr_eq_none _, jsOrNullStr_eq_none _, jsOrNullStr_eq_none _,
   jsOrNullStr_eq_none _, jsOrNullStr_eq_none _, jsOrNullStr_eq_none _⟩

/-! ### C8 -/

/-- C8: `extractSellerInfo` is total (modelled by `extractSellerInfo000`
being a function on every fetch outcome); on any navigation or in-page
failure it returns a profile consisting solely of the error indicator, and
the caller's record assembly turns that profile into a record whose
profile fields are all null, falling back to the discovered anchor text
for the display name — the run is not aborted. -/
theorem c8_error_indicator_profile (msg asin mkCode mkDomain : List Char)
    (seller : Candidate) :
    extractSellerInfo000 (.fail msg) = { error := some msg } ∧
    (buildRecord asin mkCode mkDomain seller (extractSellerInfo000 (.fail msg))).sellerDisplayName = seller.name ∧
    (buildRecord asin mkCode mkDomain seller (extractSellerInfo000 (.fail msg))).businessName = none ∧
    (buildRecord asin mkCode mkDomain seller (extractSellerInfo000 (.fail msg))).businessType = none ∧
    (buildRecord asin mkCode mkDomain seller (extractSellerInfo000 (.fail msg))).phoneNumber = none ∧
    (buildRecord asin mkCode mkDomain seller (extractSellerInfo000 (.fail msg))).customerServicePhone = none ∧
    (buildRecord asin mkCode mkDomain seller (extractSellerInfo000 (.fail msg))).email = none ∧
    (buildRecord asin mkCode mkDomain seller (extractSellerInfo000 (.fail msg))).vatNumber = none ∧
    (buildRecord asin mkCode mkDomain seller (extractSellerInfo000 (.fail msg))).tradeRegisterNumber = none ∧
    (buildRecord asin mkCode mkDomain seller (extractSellerInfo000 (.fail msg))).businessAddress = none ∧
    (buildRecord asin mkCode mkDomain seller (extractSellerInfo000 (.fail msg))).customerServiceAddress = none ∧
    (buildRecord asin mkCode mkDomain seller (extractSellerInfo000 (.fail msg))).rating = none ∧
    (buildRecord asin mkCode mkDomain seller (extractSellerInfo000 (.fail msg))).positivePercent = none ∧
    (buildRecord asin mkCode mkDomain seller (extractSellerInfo000 (.fail msg))).ratingCount = none ∧
    (buildRecord asin mkCode mkDomain seller (extractSellerInfo000 (.fail msg))).hasDetailedInfo = false :=
  ⟨rfl, rfl, rfl, rfl, rfl, rfl, rfl, rfl, rfl, rfl, rfl, rfl, rfl, rfl, rfl⟩

/-! ### C4 -/

/-- C4 counterexample: on the spec's literal test vector — whose address
label line `"Business Address"` contains no colon — the label:value loop
skips the label line entirely (`if (!line.includes(':')) continue`), so no
businessAddress is produced, while the VAT line still parses. -/
theorem c4_counterexample_no_colon_label :
    (parseDetailLoop linesC4 {}).businessAddress = none ∧
    (parseDetailLoop linesC4 {}).vatNumber = some ("GB123456789".toList) := by
  constructor <;> rfl

/-- C4 (amended): with the address label rendered as a label:value line
with an empty value — `"Business Address:"` — the parser collects the
following lines joined by `", "`, stopping exactly at the first line
containing a colon, and the VAT line yields its value. -/
theorem c4_address_continuation :
    (parseDetailLoop linesC4colon {}).businessAddress =
      some ("12 High Street, London, EC1 1AA, United Kingdom".toList) ∧
    (parseDetailLoop linesC4colon {}).vatNumber = some ("GB123456789".toList) := by
  constructor <;> rfl

/-! ### C2 -/

lemma evalS_no_heading (q : ProfilePageS) (hq : hasDetailHeading q.h3Texts = false) :
    (extractSellerInfoEvalS q).phoneNumber = none ∧
    (extractSellerInfoEvalS q).customerServicePhone = none ∧
    (extractSellerInfoEvalS q).hasDetailedInfo = some false := by
  unfold extractSellerInfoEvalS baseInfoS
  simp only [hq]
  cases q.ratingText with
  | none => refine ⟨?_, ?_, ?_⟩ <;> trivial
  | some t =>
    rcases htr : jsTrim t with _ | ⟨c, cs⟩ <;> simp [htr]

/-- C2 (amended): on a profile page with no "Detailed Seller Information"
heading whose visible text matches the customer-service-phone label, the
part_000/part_001 extractor returns hasDetailedInfo=false, both phone
fields set to the (trimmed) matched value, and every other business field
absent; `src/src/scraper.js`'s extractor instead returns
hasDetailedInfo=false with no phone fields at all, because its fallback
only runs after a detail heading was found. -/
theorem c2_partial_extraction_tolerance (p : ProfilePage) (q : ProfilePageS) (v : List Char)
    (hh : hasDetailHeading p.h3Texts = false)
    (hcs : matchCsPhone p.bodyText = some v)
    (hq : hasDetailHeading q.h3Texts = false) :
    (extractSellerInfoEval p).hasDetailedInfo = some false ∧
    (extractSellerInfoEval p).phoneNumber = some (jsTrim v) ∧
    (extractSellerInfoEval p).customerServicePhone = some (jsTrim v) ∧
    (extractSellerInfoEval p).businessName = none ∧
    (extractSellerInfoEval p).businessType = none ∧
    (extractSellerInfoEval p).vatNumber = none ∧
    (extractSellerInfoEval p).tradeRegisterNumber = none ∧
    (extractSellerInfoEval p).email = none ∧
    (extractSellerInfoEval p).businessAddress = none ∧
    (extractSellerInfoEval p).customerServiceAddress = none ∧
    (extractSellerInfoEvalS q).hasDetailedInfo = some false ∧
    (extractSellerInfoEvalS q).phoneNumber = none ∧
    (extractSellerInfoEvalS q).customerServicePhone = none := by
  have hqparts := evalS_no_heading q hq
  unfold extractSellerInfoEval
  simp only [hh, hcs]
  refine ⟨?_, ?_, ?_, ?_, ?_, ?_, ?_, ?_, ?_, ?_,
    hqparts.2.2, hqparts.1, hqparts.2.1⟩ <;> trivial

/-- C2 counterexample: on a heading-less profile page whose body matches
`Customer Service Phone: +44 20 7946 0958`, the `src/src/scraper.js`
extractor produces no phone fields, contradicting the claim for that
implementation. -/
theorem c2_counterexample_scraper_drops_fallback :
    matchCsPhone pageC2S.bodyText = some ("+44 20 7946 0958".toList) ∧
    hasDetailHeading pageC2S.h3Texts = false ∧
    (extractSellerInfoEvalS pageC2S).hasDetailedInfo = some false ∧
    (extractSellerInfoEvalS pageC2S).phoneNumber = none ∧
    (extractSellerInfoEvalS pageC2S).customerServicePhone = none := by
  exact ⟨rfl, rfl, rfl, rfl, rfl⟩

/-- C2 witness on concrete pages. -/
theorem c2_partial_extraction_tolerance_witness :
    (hasDetailHeading pageC2P.h3Texts = false ∧
     matchCsPhone pageC2P.bodyText = some ("+44 20 7946 0958".toList) ∧
     hasDetailHeading pageC2S.h3Texts = false) ∧
    (extractSellerInfoEval pageC2P).hasDetailedInfo = some false ∧
    (extractSellerInfoEval pageC2P).phoneNumber = some ("+44 20 7946 0958".toList) ∧
    (extractSellerInfoEval pageC2P).customerServicePhone = some ("+44 20 7946 0958".toList) ∧
    (extractSellerInfoEval pageC2P).businessName = none ∧
    (extractSellerInfoEvalS pageC2S).phoneNumber = none := by
  have h := c2_partial_extraction_tolerance pageC2P pageC2S ("+44 20 7946 0958".toList)
    (by decide) (by decide) (by decide)
  have e : jsTrim ("+44 20 7946 0958".toList) = ("+44 20 7946 0958".toList) := by decide
  rw [e] at h
  exact ⟨⟨by decide, by decide, by decide⟩, h.1, h.2.1, h.2.2.1, h.2.2.2.1,
    h.2.2.2.2.2.2.2.2.2.2.2.1⟩

/-! ### C3 -/

/-- C3 (amended): part_000's `extractAllSellers` returns the empty
sequence and records a warning on navigation failure, performing no
extraction; part_001's version records the warning but continues, its
result being exactly what extraction yields on the remaining page state
(navigation failure has no effect on the returned sellers). -/
theorem c3_nav_failure_behavior (q : OfferPage000) (p : OfferPage001)
    (hq : q.navFailed = true) :
    (extractAllSellers000 q).sellers = [] ∧
    (extractAllSellers000 q).warnedNavFailure = true ∧
    (extractAllSellers001 p).warnedNavFailure = p.navFailed ∧
    (extractAllSellers001 p).sellers =
      (extractAllSellers001 { p with navFailed := false }).sellers := by
  refine ⟨?_, ?_, rfl, rfl⟩ <;> simp [extractAllSellers000, hq]

/-- C3 counterexample: a part_001 offer page whose navigation failed but
which still yields a non-empty seller sequence from the remaining page
state, contradicting "returns the empty sequence, performing no
extraction". -/
theorem c3_counterexample_extracts_after_nav_failure :
    offerC3.navFailed = true ∧
    (extractAllSellers001 offerC3).sellers =
      [⟨("Acme Trading".toList), ("A1B2C3".toList), ("h".toList), ("aag".toList)⟩] := by
  exact ⟨rfl, rfl⟩

/-- C3 witness on concrete offer pages. -/
theorem c3_nav_failure_behavior_witness :
    offerC3W.navFailed = true ∧
    (extractAllSellers000 offerC3W).sellers = [] ∧
    (extractAllSellers000 offerC3W).warnedNavFailure = true ∧
    (extractAllSellers001 offerC3).warnedNavFailure = offerC3.navFailed ∧
    (extractAllSellers001 offerC3).sellers =
      (extractAllSellers001 { offerC3 with navFailed := false }).sellers := by
  have h := c3_nav_failure_behavior offerC3W offerC3 rfl
  exact ⟨rfl, h.1, h.2.1, h.2.2.1, h.2.2.2⟩

/-! ### C7 -/

/-- C7 (amended): whenever the page text matches the customer-service-
phone label and the extractor reaches its final fallback — for
part_000/part_001 on every page whose detail container resolves when the
heading is present (the no-heading branch has its own fallback); for
`src/src/scraper.js` only when the heading and container are present —
customerServicePhone is set to the matched value, and phoneNumber is set
from it exactly when the detailed-block parse left it unset (the
detailed-block phone number takes precedence). -/
theorem c7_fallback_precedence (p : ProfilePage) (q : ProfilePageS) (v w : List Char)
    (hp : matchCsPhone p.bodyText = some v)
    (hpc : hasDetailHeading p.h3Texts = true → p.containerText.isSome = true)
    (hq : matchCsPhone q.bodyText = some w)
    (hqh : hasDetailHeading q.h3Texts = true)
    (hqc : q.containerText.isSome = true) :
    (extractSellerInfoEval p).customerServicePhone = some (jsTrim v) ∧
    (extractSellerInfoEval p).phoneNumber = some ((detailPhone p).getD (jsTrim v)) ∧
    (extractSellerInfoEvalS q).customerServicePhone = some (jsTrim w) ∧
    (extractSellerInfoEvalS q).phoneNumber = some ((detailPhoneS q).getD (jsTrim w)) := by
  have hqpart :
      (extractSellerInfoEvalS q).customerServicePhone = some (jsTrim w) ∧
      (extractSellerInfoEvalS q).phoneNumber = some ((detailPhoneS q).getD (jsTrim w)) := by
    obtain ⟨txt, htxt⟩ := Option.isSome_iff_exists.mp hqc
    unfold extractSellerInfoEvalS detailPhoneS
    rcases hr : (parseDetailLoop (detailLines txt)
        { baseInfoS q with hasDetailedInfo := some true }).phoneNumber with _ | ph
    · simp only [hqh, htxt, hq, hr]
      refine ⟨?_, ?_⟩ <;> trivial
    · simp only [hqh, htxt, hq, hr]
      refine ⟨?_, ?_⟩ <;> trivial
  have hppart :
      (extractSellerInfoEval p).customerServicePhone = some (jsTrim v) ∧
      (extractSellerInfoEval p).phoneNumber = some ((detailPhone p).getD (jsTrim v)) := by
    rcases Bool.eq_false_or_eq_true (hasDetailHeading p.h3Texts) with hd | hd
    · obtain ⟨txt, htxt⟩ := Option.isSome_iff_exists.mp (hpc hd)
      unfold extractSellerInfoEval detailPhone
      rcases hr : (parseDetailLoop (detailLines txt)
          { baseInfo p with hasDetailedInfo := some true }).phoneNumber with _ | ph
      · simp only [hd, htxt, hp, hr]
        refine ⟨?_, ?_⟩ <;> trivial
      · simp only [hd, htxt, hp, hr]
        refine ⟨?_, ?_⟩ <;> trivial
    · unfold extractSellerInfoEval detailPhone
      simp only [hd, hp]
      refine ⟨?_, ?_⟩ <;> trivial
  exact ⟨hppart.1, hppart.2, hqpart.1, hqpart.2⟩

/-- C7 counterexample: a `src/src/scraper.js` profile page without the
detail heading whose body matches the fallback label, yet
customerServicePhone is never set — refuting "whenever the visible page
text contains the label, customerServicePhone is set". -/
theorem c7_counterexample_no_heading_no_cs_phone :
    matchCsPhone pageC7S.bodyText = some ("+971 4 555 0100".toList) ∧
    (extractSellerInfoEvalS pageC7S).customerServicePhone = none := by
  exact ⟨rfl, rfl⟩

/-- C7 witness: concrete pages where the detailed block carries its own
phone number, showing the precedence, next to the fallback value in
customerServicePhone. -/
theorem c7_fallback_precedence_witness :
    (matchCsPhone pageC7P.bodyText = some ("999".toList) ∧
     (hasDetailHeading pageC7P.h3Texts = true → pageC7P.containerText.isSome = true) ∧
     matchCsPhone pageC7Q.bodyText = some ("888".toList) ∧
     hasDetailHeading pageC7Q.h3Texts = true ∧
     pageC7Q.containerText.isSome = true) ∧
    (extractSellerInfoEval pageC7P).customerServicePhone = some ("999".toList) ∧
    (extractSellerInfoEval pageC7P).phoneNumber = some ("123".toList) ∧
    (extractSellerInfoEvalS pageC7Q).customerServicePhone = some ("888".toList) ∧
    (extractSellerInfoEvalS pageC7Q).phoneNumber = some ("456".toList) := by
  have h := c7_fallback_precedence pageC7P pageC7Q ("999".toList) ("888".toList)
    (by decide) (fun _ => by decide) (by decide) (by decide) (by decide)
  have e1 : jsTrim ("999".toList) = ("999".toList) := by decide
  have e2 : (detailPhone pageC7P).getD (jsTrim ("999".toList)) = ("123".toList) := by decide
  have e3 : jsTrim ("888".toList) = ("888".toList) := by decide
  have e4 : (detailPhoneS pageC7Q).getD (jsTrim ("888".toList)) = ("456".toList) := by decide
  obtain ⟨h1, h2, h3, h4⟩ := h
  rw [e2] at h2
  rw [e4] at h4
  rw [e1] at h1
  rw [e3] at h3
  exact ⟨⟨by decide, fun _ => by decide, by decide, by decide, by decide⟩, h1, h2, h3, h4⟩

/-! ### C1 -/

lemma accumStrategies_not_mem (l : List Candidate) :
    ∀ (seen : List (List Char)), ∀ r ∈ accumStrategies seen l, r.sellerId ∉ seen := by
  induction l with
  | nil => intro seen r hr; simp [accumStrategies] at hr
  | cons c rest ih =>
    intro seen r hr
    simp only [accumStrategies] at hr
    by_cases hc : (validCandidate c && !(List.contains seen c.sellerId)) = true
    · rw [if_pos hc] at hr
      have hns : c.sellerId ∉ seen := by
        simpa using ((Bool.and_eq_true _ _).mp hc).2
      rcases List.mem_cons.mp hr with h | h
      · subst h; exact hns
      · intro hmem
        exact ih (c.sellerId :: seen) r h (List.mem_cons_of_mem _ hmem)
    · rw [if_neg hc] at hr
      exact ih seen r hr

lemma accumStrategies_ids_nodup (l : List Candidate) :
    ∀ (seen : List (List Char)), ((accumStrategies seen l).map Candidate.sellerId).Nodup := by
  induction l with
  | nil => intro seen; simp [accumStrategies]
  | cons c rest ih =>
    intro seen
    simp only [accumStrategies]
    by_cases hc : (validCandidate c && !(List.contains seen c.sellerId)) = true
    · rw [if_pos hc]
      simp only [List.map_cons, List.nodup_cons]
      refine ⟨?_, ih _⟩
      intro hmem
      rcases List.mem_map.mp hmem with ⟨r, hr, hid⟩
      have hnot := accumStrategies_not_mem rest (c.sellerId :: seen) r hr
      rw [hid] at hnot
      exact hnot (List.mem_cons_self _ _)
    · rw [if_neg hc]; exact ih seen

lemma accumStrategies_find (id : List Char) (l : List Candidate) :
    ∀ (seen : List (List Char)),
      (accumStrategies seen l).find? (fun c => c.sellerId == id) =
        if id ∈ seen then none
        else l.find? (fun c => validCandidate c && (c.sellerId == id)) := by
  induction l with
  | nil =>
    intro seen
    simp only [accumStrategies, List.find?_nil]
    split <;> rfl
  | cons c rest ih =>
    intro seen
    simp only [accumStrategies]
    by_cases hc : (validCandidate c && !(List.contains seen c.sellerId)) = true
    · have hv : validCandidate c = true := ((Bool.and_eq_true _ _).mp hc).1
      have hns : c.sellerId ∉ seen := by
        simpa using ((Bool.and_eq_true _ _).mp hc).2
      rw [if_pos hc]
      by_cases hid : (c.sellerId == id) = true
      · have hide : c.sellerId = id := by simpa using hid
        rw [List.find?_cons, List.find?_cons]
        simp only [hid, hv, Bool.true_and]
        rw [if_neg (by rw [← hide]; exact hns)]
      · have hid2 : (c.sellerId == id) = false := Bool.eq_false_iff.mpr hid
        rw [List.find?_cons, List.find?_cons]
        simp only [hid2, Bool.and_false]
        rw [ih (c.sellerId :: seen)]
        have hne : c.sellerId ≠ id := by simpa using hid
        by_cases hmem : id ∈ seen
        · rw [if_pos (List.mem_cons_of_mem _ hmem), if_pos hmem]
        · rw [if_neg (by
            intro h
            rcases List.mem_cons.mp h with h | h
            · exact hne h.symm
            · exact hmem h), if_neg hmem]
    · rw [if_neg hc]
      rw [ih seen]
      by_cases hmem : id ∈ seen
      · rw [if_pos hmem, if_pos hmem]
      · rw [if_neg hmem, if_neg hmem]
        have hp2 : (validCandidate c && (c.sellerId == id)) = false := by
          by_cases hvv : validCandidate c = true
          · by_cases hb : (c.sellerId == id) = true
            · exfalso
              have hmemseen : c.sellerId ∈ seen := by
                by_contra hnm
                apply hc
                rw [Bool.and_eq_true]
                exact ⟨hvv, by simpa using hnm⟩
              exact hmem ((by simpa using hb : c.sellerId = id) ▸ hmemseen)
            · rw [Bool.eq_false_iff.mpr hb, Bool.and_false]
          · rw [Bool.eq_false_iff.mpr hvv, Bool.false_and]
        rw [List.find?_cons]
        simp only [hp2]

lemma jsMapInsert_keys_nodup (m : List (List Char × Candidate)) (k : List Char)
    (v : Candidate) (h1 : (m.map Prod.fst).Nodup) :
    ((jsMapInsert m k v).map Prod.fst).Nodup := by
  unfold jsMapInsert
  by_cases hk : (m.any fun p => p.1 == k) = true
  · rw [if_pos hk]
    have heq : ((m.map fun p => if (p.1 == k) = true then (k, v) else p).map Prod.fst) =
        m.map Prod.fst := by
      rw [List.map_map]
      apply List.map_congr_left
      intro a _
      by_cases hp : (a.1 == k) = true
      · simp only [Function.comp_apply, if_pos hp]
        exact (by simpa using hp : a.1 = k).symm
      · simp only [Function.comp_apply, if_neg hp]
    rw [heq]; exact h1
  · rw [if_neg hk]
    rw [List.map_append]
    rw [List.nodup_append]
    refine ⟨h1, by simp, ?_⟩
    intro a ha hb
    rcases List.mem_map.mp ha with ⟨x, hx, hxa⟩
    have hbk : a = k := by
      rw [List.map_cons, List.map_nil] at hb
      exact List.mem_singleton.mp hb
    have := List.any_eq_false.mp (Bool.eq_false_iff.mpr hk) x hx
    apply this
    rw [hxa, hbk]
    simp

lemma jsMapInsert_keyval (m : List (List Char × Candidate)) (v : Candidate)
    (h2 : ∀ x ∈ m, x.1 = x.2.sellerId) :
    ∀ x ∈ jsMapInsert m v.sellerId v, x.1 = x.2.sellerId := by
  unfold jsMapInsert
  by_cases hk : (m.any fun p => p.1 == v.sellerId) = true
  · rw [if_pos hk]
    intro x hx
    rcases List.mem_map.mp hx with ⟨a, ha, hax⟩
    by_cases hp : (a.1 == v.sellerId) = true
    · rw [if_pos hp] at hax
      rw [← hax]
    · rw [if_neg hp] at hax
      rw [← hax]; exact h2 a ha
  · rw [if_neg hk]
    intro x hx
    rcases List.mem_append.mp hx with h | h
    · exact h2 x h
    · have : x = (v.sellerId, v) := by simpa using h
      rw [this]

lemma jsMapOfAux_inv (l : List Candidate) :
    ∀ (m : List (List Char × Candidate)),
      (m.map Prod.fst).Nodup → (∀ x ∈ m, x.1 = x.2.sellerId) →
      ((jsMapOfAux m l).map Prod.fst).Nodup ∧
        ∀ x ∈ jsMapOfAux m l, x.1 = x.2.sellerId := by
  induction l with
  | nil => intro m h1 h2; exact ⟨h1, h2⟩
  | cons c rest ih =>
    intro m h1 h2
    simp only [jsMapOfAux]
    exact ih _ (jsMapInsert_keys_nodup m c.sellerId c h1) (jsMapInsert_keyval m c h2)

lemma jsMapOfAux_eq_append (l : List Candidate) :
    ∀ (m : List (List Char × Candidate)),
      (l.map Candidate.sellerId).Nodup →
      (∀ c ∈ l, ∀ x ∈ m, x.1 ≠ c.sellerId) →
      jsMapOfAux m l = m ++ l.map (fun c => (c.sellerId, c)) := by
  induction l with
  | nil => intro m _ _; simp [jsMapOfAux]
  | cons c rest ih =>
    intro m hnd hdis
    have hnd2 : c.sellerId ∉ rest.map Candidate.sellerId ∧
        (rest.map Candidate.sellerId).Nodup := by
      rw [List.map_cons] at hnd
      exact List.nodup_cons.mp hnd
    simp only [jsMapOfAux]
    have hins : jsMapInsert m c.sellerId c = m ++ [(c.sellerId, c)] := by
      unfold jsMapInsert
      rw [if_neg]
      intro h
      rcases List.any_eq_true.mp h with ⟨x, hx, hbeq⟩
      exact hdis c (List.mem_cons_self _ _) x hx (by simpa using hbeq)
    rw [hins]
    rw [ih (m ++ [(c.sellerId, c)]) hnd2.2 ?_]
    · rw [List.append_assoc]
      rfl
    · intro c2 hc2 x hx
      rcases List.mem_append.mp hx with h | h
      · exact hdis c2 (List.mem_cons_of_mem _ hc2) x h
      · have hx2 : x = (c.sellerId, c) := by simpa using h
        rw [hx2]
        show c.sellerId ≠ c2.sellerId
        intro hcon
        apply hnd2.1
        rw [hcon]
        exact List.mem_map.mpr ⟨c2, hc2, rfl⟩

lemma dedupe_eq_self (l : List Candidate)
    (hnd : (l.map Candidate.sellerId).Nodup) : dedupeBySellerIdMap l = l := by
  unfold dedupeBySellerIdMap
  rw [jsMapOfAux_eq_append l [] hnd (by intro c _ x hx; simp at hx)]
  rw [List.nil_append, List.map_map]
  have : (Prod.snd ∘ fun c : Candidate => (c.sellerId, c)) = id := by
    funext a; rfl
  rw [this, List.map_id]

lemma dedupe_ids_nodup (l : List Candidate) :
    ((dedupeBySellerIdMap l).map Candidate.sellerId).Nodup := by
  obtain ⟨h1, h2⟩ := jsMapOfAux_inv l [] (by simp) (by simp)
  unfold dedupeBySellerIdMap
  rw [List.map_map]
  have heq : (jsMapOfAux [] l).map (Candidate.sellerId ∘ Prod.snd) =
      (jsMapOfAux [] l).map Prod.fst := by
    apply List.map_congr_left
    intro x hx
    exact (h2 x hx).symm
  rw [heq]
  exact h1

/-- C1 (amended): on every successfully analysed offer page the returned
seller sequence contains no repeated sellerId in both engines; in the
multi-strategy engine (part_001) the element retained for a sellerId is
the first valid candidate with that id in strategy-priority-then-DOM
order; in part_000 the JavaScript-`Map` dedup also keeps one entry per
sellerId, but at the first occurrence's position it retains the last
occurrence's fields (see the counterexample). -/
theorem c1_dedup_keeps_first_occurrence (p : OfferPage001) (q : OfferPage000)
    (id : List Char)
    (hp1 : notFoundPage p.title p.url = false) (hp2 : p.hasCaptcha = false) :
    (((extractAllSellers001 p).sellers.map Candidate.sellerId).Nodup) ∧
    ((extractAllSellers001 p).sellers.find? (fun c => c.sellerId == id) =
      p.candidates.find? (fun c => validCandidate c && (c.sellerId == id))) ∧
    (((extractAllSellers000 q).sellers.map Candidate.sellerId).Nodup) := by
  have hsell : (extractAllSellers001 p).sellers =
      dedupeBySellerIdMap (accumStrategies [] p.candidates) := by
    simp [extractAllSellers001, hp1, hp2]
  have hnd := accumStrategies_ids_nodup p.candidates []
  rw [hsell, dedupe_eq_self _ hnd]
  refine ⟨hnd, ?_, ?_⟩
  · have h := accumStrategies_find id p.candidates []
    simpa using h
  · unfold extractAllSellers000
    split
    · simp
    · split
      · simp
      · split
        · simp
        · exact dedupe_ids_nodup _

/-- C1 counterexample: part_000's `Map`-based dedup applied to two
extractions of the same sellerId keeps the *last* occurrence's display
text and href (at the first occurrence's position), so the retained
SellerReference is not the first-encountered one. -/
theorem c1_counterexample_map_keeps_last :
    (extractAllSellers000 offerC1).sellers =
      [⟨("Second Seller".toList), ("A1XYZ".toList), ("h2".toList), ("aod".toList)⟩] ∧
    ("Second Seller".toList) ≠ ("First Seller".toList) := by
  exact ⟨rfl, by decide⟩

/-- C1 witness: a concrete multi-strategy page where one sellerId arrives
from two strategies — the retained candidate is the first one — plus the
part_000 nodup conclusion. -/
theorem c1_dedup_keeps_first_occurrence_witness :
    (notFoundPage offerC1W.title offerC1W.url = false ∧ offerC1W.hasCaptcha = false) ∧
    (((extractAllSellers001 offerC1W).sellers.map Candidate.sellerId).Nodup) ∧
    ((extractAllSellers001 offerC1W).sellers.find?
        (fun c => c.sellerId == ("A1XYZ".toList)) =
      offerC1W.candidates.find?
        (fun c => validCandidate c && (c.sellerId == ("A1XYZ".toList)))) ∧
    (((extractAllSellers000 offerC1).sellers.map Candidate.sellerId).Nodup) := by
  have h := c1_dedup_keeps_first_occurrence offerC1W offerC1 ("A1XYZ".toList)
    (by decide) (by decide)
  exact ⟨⟨by decide, by decide⟩, h.1, h.2.1, h.2.2⟩

/-! ### C5 -/

lemma seenLookup_append (seen : List (List Char × List Char)) (k v s : List Char) :
    seenLookup (seen ++ [(k, v)]) s =
      (seenLookup seen s).or (if k = s then some v else none) := by
  unfold seenLookup
  rw [List.find?_append, Option.map_or']
  congr 1
  rw [List.find?_cons]
  by_cases hk : (k == s) = true
  · simp only [hk]
    rw [if_pos (by simpa using hk)]
    rfl
  · simp only [Bool.eq_false_iff.mpr hk]
    rw [if_neg (by simpa using hk)]
    rfl

lemma unitOut_marketplace (l : List (List Char)) :
    ∀ (seen : List (List Char × List Char)) (mk : List Char),
      ∀ r ∈ unitOut seen mk l, r.marketplace = mk := by
  induction l with
  | nil => intro seen mk r hr; simp [unitOut] at hr
  | cons t rest ih =>
    intro seen mk r hr
    simp only [unitOut] at hr
    rcases hl : seenLookup seen t with _ | f <;> rw [hl] at hr
    · rcases List.mem_cons.mp hr with h | h
      · subst h; rfl
      · exact ih _ _ r h
    · rcases List.mem_cons.mp hr with h | h
      · subst h; rfl
      · exact ih _ _ r h

lemma unitOut_id_mem (l : List (List Char)) :
    ∀ (seen : List (List Char × List Char)) (mk : List Char),
      ∀ r ∈ unitOut seen mk l, r.sellerId ∈ l := by
  induction l with
  | nil => intro seen mk r hr; simp [unitOut] at hr
  | cons t rest ih =>
    intro seen mk r hr
    simp only [unitOut] at hr
    rcases hl : seenLookup seen t with _ | f <;> rw [hl] at hr
    · rcases List.mem_cons.mp hr with h | h
      · subst h; exact List.mem_cons_self _ _
      · exact List.mem_cons_of_mem _ (ih _ _ r h)
    · rcases List.mem_cons.mp hr with h | h
      · subst h; exact List.mem_cons_self _ _
      · exact List.mem_cons_of_mem _ (ih _ _ r h)

lemma unitOut_exists (l : List (List Char)) :
    ∀ (seen : List (List Char × List Char)) (mk s : List Char), s ∈ l →
      ∃ r ∈ unitOut seen mk l, r.sellerId = s := by
  induction l with
  | nil => intro seen mk s hs; simp at hs
  | cons t rest ih =>
    intro seen mk s hs
    simp only [unitOut]
    rcases hl : seenLookup seen t with _ | f
    · rcases List.mem_cons.mp hs with h | h
      · exact ⟨⟨t, mk, mk, false⟩, List.mem_cons_self _ _, h.symm⟩
      · rcases ih (seen ++ [(t, mk)]) mk s h with ⟨r, hr, hrs⟩
        exact ⟨r, List.mem_cons_of_mem _ hr, hrs⟩
    · rcases List.mem_cons.mp hs with h | h
      · exact ⟨⟨t, mk, f, true⟩, List.mem_cons_self _ _, h.symm⟩
      · rcases ih seen mk s h with ⟨r, hr, hrs⟩
        exact ⟨r, List.mem_cons_of_mem _ hr, hrs⟩

lemma seenLookup_unitSeen (l : List (List Char)) :
    ∀ (seen : List (List Char × List Char)) (mk s : List Char),
      seenLookup (unitSeen seen mk l) s =
        (seenLookup seen s).or (if s ∈ l then some mk else none) := by
  induction l with
  | nil =>
    intro seen mk s
    simp only [unitSeen]
    rw [if_neg (List.not_mem_nil s), Option.or_none]
  | cons t rest ih =>
    intro seen mk s
    simp only [unitSeen]
    rcases hl : seenLookup seen t with _ | f
    · rw [ih]
      rw [seenLookup_append]
      rcases hs : seenLookup seen s with _ | x
      · simp only [Option.none_or]
        by_cases hts : t = s
        · rw [if_pos hts, Option.or_some,
            if_pos (show s ∈ t :: rest by rw [hts]; exact List.mem_cons_self s rest)]
        · rw [if_neg hts]
          simp only [Option.none_or]
          by_cases hsr : s ∈ rest
          · rw [if_pos hsr, if_pos (List.mem_cons_of_mem _ hsr)]
          · rw [if_neg hsr, if_neg (by
              intro h
              rcases List.mem_cons.mp h with h | h
              · exact hts h.symm
              · exact hsr h)]
      · rfl
    · rw [ih]
      rcases hs : seenLookup seen s with _ | x
      · have hts : t ≠ s := by
          intro h
          rw [h, hs] at hl
          cases hl
        simp only [Option.none_or]
        by_cases hsr : s ∈ rest
        · rw [if_pos hsr, if_pos (List.mem_cons_of_mem _ hsr)]
        · rw [if_neg hsr, if_neg (by
            intro h
            rcases List.mem_cons.mp h with h | h
            · exact hts h.symm
            · exact hsr h)]
      · rfl

lemma unitOut_dup_of_seen (l : List (List Char)) :
    ∀ (seen : List (List Char × List Char)) (mk s m : List Char),
      seenLookup seen s = some m →
      ∀ r ∈ unitOut seen mk l, r.sellerId = s →
        r.isDuplicate = true ∧ r.firstSeenOnMarketplace = m := by
  induction l with
  | nil => intro seen mk s m _ r hr; simp [unitOut] at hr
  | cons t rest ih =>
    intro seen mk s m hsome r hr hrs
    simp only [unitOut] at hr
    rcases hl : seenLookup seen t with _ | f <;> rw [hl] at hr
    · rcases List.mem_cons.mp hr with h | h
      · exfalso
        subst h
        have hts : t = s := hrs
        rw [hts, hsome] at hl
        cases hl
      · refine ih (seen ++ [(t, mk)]) mk s m ?_ r h hrs
        rw [seenLookup_append, hsome]
        rfl
    · rcases List.mem_cons.mp hr with h | h
      · subst h
        have hts : t = s := hrs
        rw [hts, hsome] at hl
        exact ⟨rfl, (Option.some.inj hl).symm⟩
      · exact ih seen mk s m hsome r h hrs

lemma unitOut_first (l : List (List Char)) :
    ∀ (seen : List (List Char × List Char)) (mk s : List Char),
      seenLookup seen s = none → l.Nodup →
      ∀ r ∈ unitOut seen mk l, r.sellerId = s →
        r.isDuplicate = false ∧ r.firstSeenOnMarketplace = mk := by
  induction l with
  | nil => intro seen mk s _ _ r hr; simp [unitOut] at hr
  | cons t rest ih =>
    intro seen mk s hnone hnd r hr hrs
    have hnd2 := List.nodup_cons.mp hnd
    simp only [unitOut] at hr
    rcases hl : seenLookup seen t with _ | f <;> rw [hl] at hr
    · rcases List.mem_cons.mp hr with h | h
      · subst h
        exact ⟨rfl, rfl⟩
      · by_cases hts : t = s
        · exfalso
          have hsr : r.sellerId ∈ rest := unitOut_id_mem rest _ _ r h
          rw [hrs, ← hts] at hsr
          exact hnd2.1 hsr
        · refine ih (seen ++ [(t, mk)]) mk s ?_ hnd2.2 r h hrs
          rw [seenLookup_append, hnone, if_neg hts]
          rfl
    · rcases List.mem_cons.mp hr with h | h
      · exfalso
        subst h
        have hts : t = s := hrs
        rw [hts, hnone] at hl
        cases hl
      · exact ih seen mk s hnone hnd2.2 r h hrs

/-- C5: with marketplaces processed in order `[A, B]` and a seller present
in both discovery results, the record emitted from `A` has
`isDuplicate = false` and `firstSeenOnMarketplace = A`, and every record
emitted from `B` for that seller has `isDuplicate = true` and
`firstSeenOnMarketplace = A` — the run-scoped seen-map being consulted and
updated before each emission. -/
theorem c5_cross_marketplace_provenance (A B s : List Char)
    (la lb : List (List Char)) (hAB : A ≠ B) (ha : s ∈ la) (hb : s ∈ lb)
    (hnd : la.Nodup) :
    (∃ r ∈ orchestrate [(A, la), (B, lb)],
      r.sellerId = s ∧ r.marketplace = A ∧ r.isDuplicate = false ∧
      r.firstSeenOnMarketplace = A) ∧
    (∃ r ∈ orchestrate [(A, la), (B, lb)],
      r.sellerId = s ∧ r.marketplace = B ∧ r.isDuplicate = true ∧
      r.firstSeenOnMarketplace = A) ∧
    (∀ r ∈ orchestrate [(A, la), (B, lb)], r.sellerId = s →
      (r.marketplace = A → r.isDuplicate = false ∧ r.firstSeenOnMarketplace = A) ∧
      (r.marketplace = B → r.isDuplicate = true ∧ r.firstSeenOnMarketplace = A)) := by
  have hout : orchestrate [(A, la), (B, lb)] =
      unitOut [] A la ++ unitOut (unitSeen [] A la) B lb := by
    simp [orchestrate, orchestrateAux]
  have hlooknil : seenLookup [] s = none := rfl
  have hlookB : seenLookup (unitSeen [] A la) s = some A := by
    rw [seenLookup_unitSeen, hlooknil, if_pos ha]
    rfl
  rw [hout]
  refine ⟨?_, ?_, ?_⟩
  · rcases unitOut_exists la [] A s ha with ⟨r, hr, hrs⟩
    refine ⟨r, List.mem_append_left _ hr, hrs, unitOut_marketplace la [] A r hr, ?_⟩
    exact unitOut_first la [] A s hlooknil hnd r hr hrs
  · rcases unitOut_exists lb (unitSeen [] A la) B s hb with ⟨r, hr, hrs⟩
    refine ⟨r, List.mem_append_right _ hr, hrs,
      unitOut_marketplace lb _ B r hr, ?_⟩
    exact unitOut_dup_of_seen lb _ B s A hlookB r hr hrs
  · intro r hr hrs
    rcases List.mem_append.mp hr with h | h
    · have hmk := unitOut_marketplace la [] A r h
      constructor
      · intro _
        exact unitOut_first la [] A s hlooknil hnd r h hrs
      · intro hB
        exact absurd (hmk ▸ hB : A = B) hAB
    · have hmk := unitOut_marketplace lb _ B r h
      constructor
      · intro hA
        exact absurd (hmk ▸ hA : B = A) (fun h2 => hAB h2.symm)
      · intro _
        exact unitOut_dup_of_seen lb _ B s A hlookB r h hrs

/-- C5 witness: marketplaces UK then DE, one seller on both. -/
theorem c5_cross_marketplace_provenance_witness :
    (("UK".toList) ≠ ("DE".toList) ∧ ("S1".toList) ∈ [("S1".toList)] ∧
      ([("S1".toList)] : List (List Char)).Nodup) ∧
    (∃ r ∈ orchestrate [(("UK".toList), [("S1".toList)]),
                        (("DE".toList), [("S1".toList)])],
      r.sellerId = ("S1".toList) ∧ r.marketplace = ("UK".toList) ∧
      r.isDuplicate = false ∧ r.firstSeenOnMarketplace = ("UK".toList)) ∧
    (∃ r ∈ orchestrate [(("UK".toList), [("S1".toList)]),
                        (("DE".toList), [("S1".toList)])],
      r.sellerId = ("S1".toList) ∧ r.marketplace = ("DE".toList) ∧
      r.isDuplicate = true ∧ r.firstSeenOnMarketplace = ("UK".toList)) := by
  have h := c5_cross_marketplace_provenance ("UK".toList) ("DE".toList) ("S1".toList)
    [("S1".toList)] [("S1".toList)] (by decide) (by decide) (by decide) (by decide)
  exact ⟨⟨by decide, by decide, by decide⟩, h.1, h.2.1⟩
